import Mathlib

/-!
Verification of the batch-result pipeline of `daily-arXiv-ai-enhanced`.

This file is a shallow embedding, in Lean 4, of the two Python modules
`ai/process_batch.py` and `ai/submit_batch.py`.  File I/O is abstracted:
a JSON-Lines file becomes a Lean list of already-decoded records, and the
dictionaries the Python code manipulates become Lean structures whose
`Option` fields model the presence or absence of the corresponding key.
Python `dict` update (`results[custom_id] = v`: replace in place when the
key exists, append otherwise, preserving insertion order) is modelled by
`dictInsert` on association lists.  Every definition follows the control
flow of the corresponding Python function; the theorems at the end of the
file settle the specification claims about them.
-/

/-- Structured AI payload: the dictionary decoded from a `Structure`
function call's `arguments`.  The five text fields are always present in
the payloads the pipeline builds; `relevance` is `none` when the
dictionary lacks a `"relevance"` key. -/
structure AIResult where
  tldr : String
  motivation : String
  method : String
  result : String
  conclusion : String
  relevance : Option String
deriving DecidableEq, Repr

/-- Sentinel stored by `parse_batch_results` when the nested
response/choices/message structure is missing keys or indices
(`process_batch.py` lines 193-200). -/
def accessErrorResult : AIResult :=
  { tldr := "Error accessing result"
    motivation := "Error accessing result"
    method := "Error accessing result"
    result := "Error accessing result"
    conclusion := "Error accessing result"
    relevance := some "Error" }

/-- Sentinel stored by `parse_batch_results` when a `Structure` call's
arguments fail to decode as JSON (`process_batch.py` lines 154-161). -/
def parseErrorResult : AIResult :=
  { tldr := "Error parsing result"
    motivation := "Error parsing result"
    method := "Error parsing result"
    result := "Error parsing result"
    conclusion := "Error parsing result"
    relevance := some "Error" }

/-- Sentinel stored by `parse_batch_results` when no `Structure` function
call is found in a line (`process_batch.py` lines 179-186). -/
def noStructureCallResult : AIResult :=
  { tldr := "No AI result"
    motivation := "No AI result"
    method := "No AI result"
    result := "No AI result"
    conclusion := "No AI result"
    relevance := some "Error" }

/-- Sentinel attached by the merge stage to a record whose id has no
parsed result (`process_batch.py` lines 305-311).  Unlike the parser's
sentinels it has no `relevance` key. -/
def noAIResult : AIResult :=
  { tldr := "No AI result"
    motivation := "No AI result"
    method := "No AI result"
    result := "No AI result"
    conclusion := "No AI result"
    relevance := none }

/-- A `function_call` object: a function name together with its
`arguments` string.  The JSON decoding of the arguments is abstracted:
`arguments = some ai` models an arguments string that decodes to `ai`,
and `arguments = none` models one that raises `json.JSONDecodeError`. -/
structure FunctionCall where
  name : String
  arguments : Option AIResult
deriving DecidableEq, Repr

/-- One element of a `tool_calls` array. -/
structure ToolCall where
  ctype : String
  function : FunctionCall
deriving DecidableEq, Repr

/-- The chat-completion message of one result line: an optional legacy
`function_call` field and a `tool_calls` array (empty when the key is
absent or the array is empty, which Python treats alike by truthiness). -/
structure Message where
  function_call : Option FunctionCall
  tool_calls : List ToolCall
deriving DecidableEq, Repr

/-- One decoded line of the raw batch-results file.  `message = none`
models a line whose `response -> body -> choices[0] -> message` access
raises `KeyError` or `IndexError`. -/
structure ResultLine where
  custom_id : String
  message : Option Message
deriving DecidableEq, Repr

/-- Python dict assignment `m[k] = v`: replace the value of the first
(in a dict: only) occurrence of the key in place, keeping its position,
and append a new entry at the end when the key is absent — dicts
preserve insertion order. -/
def dictInsert : List (String × AIResult) → String → AIResult →
    List (String × AIResult)
  | [], k, v => [(k, v)]
  | (a, b) :: rest, k, v =>
    if a = k then (k, v) :: rest
    else (a, b) :: dictInsert rest k v

/-- Lookup in an association list (first match wins, like a Python dict
whose keys are unique). -/
def lookupAL : List (String × AIResult) → String → Option AIResult
  | [], _ => none
  | (k, v) :: rest, key => if k = key then some v else lookupAL rest key

/-- Locate the structured call in a message, `process_batch.py` lines
121-135: the legacy `function_call` field wins; otherwise the first
element of a non-empty `tool_calls` array is accepted when it is a
function invocation named `Structure`. -/
def locateCall (msg : Message) : Option FunctionCall :=
  match msg.function_call with
  | some fc => some fc
  | none =>
    match msg.tool_calls with
    | [] => none
    | tc :: _ =>
      if tc.ctype = "function" ∧ tc.function.name = "Structure" then
        some tc.function
      else
        none

/-- Legacy-compatibility default, `process_batch.py` lines 141-142: if
the decoded arguments lack a `relevance` key, inject `"Error"`. -/
def ensureRelevance (ai : AIResult) : AIResult :=
  match ai.relevance with
  | some _ => ai
  | none => { ai with relevance := some "Error" }

/-- Running state of `parse_batch_results`: the accumulated mapping and
the three counters the function maintains. -/
structure ParseState where
  results : List (String × AIResult)
  error_count : Nat
  function_call_count : Nat
  no_function_call_count : Nat
deriving DecidableEq, Repr

/-- State at the top of `parse_batch_results`. -/
def initParseState : ParseState :=
  { results := [], error_count := 0, function_call_count := 0
    no_function_call_count := 0 }

/-- Processing of one result line, `process_batch.py` lines 116-200:
locate the structured call, decode its arguments, and store exactly one
entry under the line's `custom_id` (a genuine payload or one of the
three sentinels), updating the counters as the source does. -/
def parseStep (s : ParseState) (line : ResultLine) : ParseState :=
  match line.message with
  | none =>
    { s with
      results := dictInsert s.results line.custom_id accessErrorResult
      error_count := s.error_count + 1 }
  | some msg =>
    match locateCall msg with
    | some fc =>
      if fc.name = "Structure" then
        match fc.arguments with
        | some ai =>
          { s with
            results := dictInsert s.results line.custom_id (ensureRelevance ai)
            function_call_count := s.function_call_count + 1 }
        | none =>
          { s with
            results := dictInsert s.results line.custom_id parseErrorResult
            error_count := s.error_count + 1
            function_call_count := s.function_call_count + 1 }
      else
        { s with
          results := dictInsert s.results line.custom_id noStructureCallResult
          no_function_call_count := s.no_function_call_count + 1
          function_call_count := s.function_call_count + 1 }
    | none =>
      { s with
        results := dictInsert s.results line.custom_id noStructureCallResult
        no_function_call_count := s.no_function_call_count + 1 }

/-- The result parser, `process_batch.py` lines 73-209, over the decoded
lines of the results file. -/
def parse_batch_results (lines : List ResultLine) : ParseState :=
  lines.foldl parseStep initParseState

/-- The value `parseStep` stores for a given line (factored out of the
branches of `parseStep`; `parseStep_results` below proves the two
agree). -/
def lineResult (line : ResultLine) : AIResult :=
  match line.message with
  | none => accessErrorResult
  | some msg =>
    match locateCall msg with
    | some fc =>
      if fc.name = "Structure" then
        match fc.arguments with
        | some ai => ensureRelevance ai
        | none => parseErrorResult
      else noStructureCallResult
    | none => noStructureCallResult

example :
    lookupAL (parse_batch_results
      [⟨"p1", some ⟨some ⟨"Structure", some ⟨"a", "b", "c", "d", "e", some "High"⟩⟩, []⟩⟩,
       ⟨"p1", some ⟨some ⟨"Structure", none⟩, []⟩⟩]).results "p1" =
    some parseErrorResult := by decide

example :
    (parse_batch_results [⟨"p2", none⟩]).results = [("p2", accessErrorResult)] := by
  decide

/-- One record of the original data file as the merge/filter/sort stage
sees it: a required `id`, an optional `AI` dictionary (`none` models a
record without the `"AI"` key), and the remaining metadata fields,
carried opaquely. -/
structure Item where
  id : String
  AI : Option AIResult
  extra : List (String × String)
deriving DecidableEq, Repr

/-- The merge loop, `process_batch.py` lines 299-312: every record gets
an `AI` field — the parsed result under its id when one exists, the
`noAIResult` sentinel otherwise. -/
def mergeResults (results : List (String × AIResult)) (data : List Item) :
    List Item :=
  data.map (fun item =>
    match lookupAL results item.id with
    | some ai => { item with AI := some ai }
    | none => { item with AI := some noAIResult })

/-- The `relevance_counts` dictionary, `process_batch.py` lines 315-323:
one counter per histogram bucket. -/
structure RelevanceCounts where
  must : Nat
  high : Nat
  medium : Nat
  low : Nat
  irrelevant : Nat
  error : Nat
  legacy : Nat
deriving DecidableEq, Repr

/-- All-zero histogram. -/
def emptyCounts : RelevanceCounts :=
  { must := 0, high := 0, medium := 0, low := 0, irrelevant := 0
    error := 0, legacy := 0 }

/-- Sum of the histogram's values (`sum(relevance_counts.values())`). -/
def RelevanceCounts.total (c : RelevanceCounts) : Nat :=
  c.must + c.high + c.medium + c.low + c.irrelevant + c.error + c.legacy

/-- Keys of the `relevance_counts` dictionary, in order. -/
def knownBuckets : List String :=
  ["Must", "High", "Medium", "Low", "Irrelevant", "Error", "Legacy"]

/-- Increment the histogram field named by a key of `relevance_counts`
(`relevance_counts[relevance] += 1`). -/
def bumpBucket (c : RelevanceCounts) (r : String) : RelevanceCounts :=
  if r = "Must" then { c with must := c.must + 1 }
  else if r = "High" then { c with high := c.high + 1 }
  else if r = "Medium" then { c with medium := c.medium + 1 }
  else if r = "Low" then { c with low := c.low + 1 }
  else if r = "Irrelevant" then { c with irrelevant := c.irrelevant + 1 }
  else if r = "Error" then { c with error := c.error + 1 }
  else { c with legacy := c.legacy + 1 }

/-- One iteration of the filter loop, `process_batch.py` lines 326-368:
classify the record into a histogram bucket and either retain it or drop
it.  In this typed model the `except` branch of the source is dead: the
only statements it guards are dictionary accesses that the `Option`
types already make total. -/
def filterStep (acc : RelevanceCounts × List Item) (item : Item) :
    RelevanceCounts × List Item :=
  match item.AI with
  | none => ({ acc.1 with legacy := acc.1.legacy + 1 }, acc.2 ++ [item])
  | some ai =>
    match ai.relevance with
    | none => ({ acc.1 with legacy := acc.1.legacy + 1 }, acc.2 ++ [item])
    | some r =>
      let c :=
        if r ∈ knownBuckets then bumpBucket acc.1 r
        else { acc.1 with error := acc.1.error + 1 }
      if r = "Low" ∨ r = "Irrelevant" then (c, acc.2)
      else (c, acc.2 ++ [item])

/-- The whole filter pass: histogram and retained records, in input
order. -/
def processFilter (enhanced : List Item) : RelevanceCounts × List Item :=
  enhanced.foldl filterStep (emptyCounts, [])

/-- Retention predicate extracted from the filter loop: a record is
dropped exactly when it carries an `AI.relevance` that is literally
`"Low"` or `"Irrelevant"`. -/
def keepItem (item : Item) : Bool :=
  match item.AI with
  | none => true
  | some ai =>
    match ai.relevance with
    | none => true
    | some r => !(r == "Low" || r == "Irrelevant")

/-- The `relevance_order` dictionary, `process_batch.py` lines 391-398. -/
def relevance_order : List (String × Nat) :=
  [("Must", 3), ("High", 2), ("Medium", 1), ("Low", 0), ("Irrelevant", 0),
   ("Error", 0)]

/-- Python `relevance_order.get(r, 0)`. -/
def relevance_order_get (r : String) : Nat :=
  match relevance_order.find? (fun p => p.1 == r) with
  | some p => p.2
  | none => 0

/-- The sort key, `process_batch.py` lines 400-411 (`get_relevance_score`):
records lacking an `AI` field or a `relevance` key score 0; `Error`,
`Irrelevant` and `Low` are special-cased to 0; everything else goes
through `relevance_order` with default 0. -/
def get_relevance_score (item : Item) : Nat :=
  match item.AI with
  | none => 0
  | some ai =>
    match ai.relevance with
    | none => 0
    | some r =>
      if r = "Error" ∨ r = "Irrelevant" ∨ r = "Low" then 0
      else relevance_order_get r

/-- Stable descending insertion: place `x` before the first element
whose key does not exceed `x`'s, so an element inserted from the left of
the original list stays before its later ties. -/
def insertDesc (key : Item → Nat) (x : Item) : List Item → List Item
  | [] => [x]
  | y :: ys =>
    if key x < key y then y :: insertDesc key x ys
    else x :: y :: ys

/-- Model of `filtered_data.sort(key=get_relevance_score, reverse=True)`,
`process_batch.py` line 414: Python's sort is stable, and a stable
descending sort by a key is extensionally unique, so insertion sort is a
faithful model. -/
def sortDesc (key : Item → Nat) : List Item → List Item
  | [] => []
  | x :: xs => insertDesc key x (sortDesc key xs)

example :
    sortDesc get_relevance_score
      [⟨"a", some ⟨"", "", "", "", "", some "Medium"⟩, []⟩,
       ⟨"b", some ⟨"", "", "", "", "", some "Must"⟩, []⟩,
       ⟨"c", some ⟨"", "", "", "", "", some "Medium"⟩, []⟩] =
      [⟨"b", some ⟨"", "", "", "", "", some "Must"⟩, []⟩,
       ⟨"a", some ⟨"", "", "", "", "", some "Medium"⟩, []⟩,
       ⟨"c", some ⟨"", "", "", "", "", some "Medium"⟩, []⟩] := by decide

/-- Outcome of one iteration of the status-polling loop. -/
inductive PollAction where
  /-- `break`: leave the loop and go on to the download stage. -/
  | proceed : PollAction
  /-- Sleep for the given number of seconds, set `wait_time` to the given
  value, and poll again. -/
  | sleepAndRepoll : Nat → Nat → PollAction
  /-- `return False`: the run ends in failure. -/
  | returnFalse : PollAction
deriving DecidableEq, Repr

/-- One iteration of the polling loop, `process_batch.py` lines 236-277,
as a function of the polled status string and the loop's state. -/
def pollStep (status : String) (wait_for_completion : Bool)
    (wait_time max_wait : Nat) : PollAction :=
  if status = "completed" then .proceed
  else if status = "failed" ∨ status = "expired" ∨ status = "cancelled" then
    .returnFalse
  else if status = "validating" ∨ status = "in_progress" ∨
      status = "finalizing" then
    if wait_for_completion = true ∧ wait_time < max_wait then
      .sleepAndRepoll 60 (wait_time + 60)
    else .returnFalse
  else .returnFalse

/-- One record of the input file as the Submit stage sees it: the
required `id` and `summary` fields plus opaque extra metadata. -/
structure SubmitRecord where
  id : String
  summary : String
  extra : List (String × String)
deriving DecidableEq, Repr

/-- One outbound request built by `create_batch_requests`.  The fixed
request template (endpoint, messages, `Structure` function schema) is
represented by the data the Python code substitutes into it. -/
structure BatchRequest where
  custom_id : String
  method : String
  url : String
  model_name : String
  language : String
  interest_section : String
  content : String
deriving DecidableEq, Repr

/-- The request builder, `submit_batch.py` lines 26-107: one request per
input record, in order, with `custom_id = item["id"]` and the user
message parameterised by language, interest section and the record's
summary. -/
def create_batch_requests (model_name : String) (data : List SubmitRecord)
    (language : String) (interest : String) : List BatchRequest :=
  data.map (fun item =>
    { custom_id := item.id
      method := "POST"
      url := "/v1/chat/completions"
      model_name := model_name
      language := language
      interest_section :=
        if interest = "" then "No interest provided" else interest
      content := item.summary })

/-- The dedup loop of the Submit entry point, `submit_batch.py` lines
183-188, with the `seen_ids` set threaded through the recursion. -/
def removeDupsLoop (seen : List String) : List SubmitRecord → List SubmitRecord
  | [] => []
  | item :: rest =>
    if item.id ∈ seen then removeDupsLoop seen rest
    else item :: removeDupsLoop (item.id :: seen) rest

/-- The Submit entry point's de-duplication, `submit_batch.py` lines
182-190: keep the first occurrence of each id, in input order. -/
def removeDuplicates (data : List SubmitRecord) : List SubmitRecord :=
  removeDupsLoop [] data

example :
    removeDuplicates [⟨"a", "s1", []⟩, ⟨"b", "s2", []⟩, ⟨"a", "s3", []⟩] =
      [⟨"a", "s1", []⟩, ⟨"b", "s2", []⟩] := by decide

/-- Abstract file-system state for the cleanup stage: which paths exist,
and which paths' removal raises an `OSError`. -/
structure FS where
  files : List String
  failing : List String
deriving DecidableEq, Repr

/-- Model of `os.remove`: either the file disappears or an exception
(carrying the path) is raised. -/
def removeFile (fs : FS) (p : String) : Except String FS :=
  if fs.failing.contains p then .error p
  else .ok { fs with files := fs.files.erase p }

/-- Cleanup of the downloaded results file, `process_batch.py` lines
434-436: guarded by an existence check but not by `try`/`except`, so a
raised exception propagates. -/
def cleanupResultsFile (fs : FS) (results_file : String) : Except String FS :=
  if fs.files.contains results_file then removeFile fs results_file
  else .ok fs

/-- Cleanup of one batch-related file, `process_batch.py` lines 445-454:
guarded by a truthiness-and-existence check, and the removal is wrapped
in `try`/`except`, so a failure only logs a warning. -/
def cleanupBatchFile (fs : FS) (p : String) : FS :=
  if p ≠ "" ∧ fs.files.contains p then
    match removeFile fs p with
    | .ok fs2 => fs2
    | .error _ => fs
  else fs

/-- The cleanup tail of `process_batch_results`, `process_batch.py`
lines 433-456: remove the results file, then best-effort remove the
batch-related files, then `return True`. -/
def cleanupTail (fs : FS) (results_file : String) (batch_files : List String) :
    Except String (FS × Bool) :=
  match cleanupResultsFile fs results_file with
  | .error e => .error e
  | .ok fs2 => .ok (batch_files.foldl cleanupBatchFile fs2, true)

/-- Pipeline actions observable after the polling loop ends. -/
inductive PipelineAction where
  /-- A call to `download_batch_results`. -/
  | download : PipelineAction
  /-- The write of the enhanced output file with the given records. -/
  | writeOutput : List Item → PipelineAction
deriving DecidableEq, Repr

/-- The part of `process_batch_results` after the polling loop breaks on
`completed`, `process_batch.py` lines 279-431: abort when the status
snapshot has no output file id, abort when the download fails, otherwise
parse, merge, filter, sort and write the output.  The download's outcome
and the downloaded content are parameters; the returned list records
which effects were attempted. -/
def downloadPhase (output_file_id : Option String) (download_ok : Bool)
    (lines : List ResultLine) (data : List Item) : Bool × List PipelineAction :=
  if output_file_id.getD "" = "" then (false, [])
  else if download_ok = false then (false, [PipelineAction.download])
  else
    let ai_results := (parse_batch_results lines).results
    let enhanced := mergeResults ai_results data
    let filtered := (processFilter enhanced).2
    let sorted := sortDesc get_relevance_score filtered
    (true, [PipelineAction.download, PipelineAction.writeOutput sorted])

/-! ## Lemmas about the parser's mapping -/

theorem parseStep_results (s : ParseState) (line : ResultLine) :
    (parseStep s line).results =
      dictInsert s.results line.custom_id (lineResult line) := by
  obtain ⟨cid, msg⟩ := line
  cases msg with
  | none => rfl
  | some m =>
    cases hc : locateCall m with
    | none => simp [parseStep, lineResult, hc]
    | some fc =>
      by_cases hn : fc.name = "Structure"
      · cases ha : fc.arguments <;> simp [parseStep, lineResult, hc, hn, ha]
      · simp [parseStep, lineResult, hc, hn]

theorem dictInsert_keys (m : List (String × AIResult)) (k : String)
    (v : AIResult) :
    (dictInsert m k v).map Prod.fst =
      if k ∈ m.map Prod.fst then m.map Prod.fst
      else m.map Prod.fst ++ [k] := by
  induction m with
  | nil => simp [dictInsert]
  | cons p rest ih =>
    rcases p with ⟨a, b⟩
    by_cases ha : a = k
    · subst ha
      simp [dictInsert]
    · have hne : ¬k = a := fun hk => ha hk.symm
      by_cases hk : k ∈ rest.map Prod.fst <;>
        simp [dictInsert, ha, hne, hk, ih]

theorem lookupAL_eq_none_iff (m : List (String × AIResult)) (key : String) :
    lookupAL m key = none ↔ key ∉ m.map Prod.fst := by
  induction m with
  | nil => simp [lookupAL]
  | cons p rest ih =>
    rcases p with ⟨a, b⟩
    by_cases h : a = key
    · simp [lookupAL, h]
    · simp [lookupAL, h, ih, Ne.symm h]

theorem lookupAL_dictInsert (m : List (String × AIResult)) (k : String)
    (v : AIResult) (key : String) :
    lookupAL (dictInsert m k v) key =
      if key = k then some v else lookupAL m key := by
  induction m with
  | nil =>
    by_cases hk : key = k
    · simp [dictInsert, lookupAL, hk]
    · have hk2 : ¬k = key := fun h => hk h.symm
      simp [dictInsert, lookupAL, hk, hk2]
  | cons p rest ih =>
    rcases p with ⟨a, b⟩
    by_cases ha : a = k
    · subst ha
      by_cases hk : key = a
      · simp [dictInsert, lookupAL, hk]
      · have hk2 : ¬a = key := fun h => hk h.symm
        simp [dictInsert, lookupAL, hk, hk2]
    · by_cases hak : a = key
      · subst hak
        simp [dictInsert, lookupAL, ha]
      · simp [dictInsert, lookupAL, ha, hak, ih]

theorem parse_batch_results_append_single (xs : List ResultLine)
    (x : ResultLine) :
    parse_batch_results (xs ++ [x]) = parseStep (parse_batch_results xs) x := by
  simp [parse_batch_results, List.foldl_append]

theorem parse_results_keys_nodup (lines : List ResultLine) :
    ((parse_batch_results lines).results.map Prod.fst).Nodup := by
  induction lines using List.reverseRecOn with
  | nil => simp [parse_batch_results, initParseState]
  | append_singleton xs x ih =>
    rw [parse_batch_results_append_single, parseStep_results, dictInsert_keys]
    by_cases hk :
        x.custom_id ∈ (parse_batch_results xs).results.map Prod.fst
    · rw [if_pos hk]
      exact ih
    · rw [if_neg hk]
      simp [List.nodup_append, ih, hk]

theorem parse_results_lookup (lines : List ResultLine) (key : String) :
    lookupAL (parse_batch_results lines).results key =
      ((lines.filter (fun l => l.custom_id == key)).getLast?).map
        lineResult := by
  induction lines using List.reverseRecOn with
  | nil => rfl
  | append_singleton xs x ih =>
    rw [parse_batch_results_append_single, parseStep_results,
      lookupAL_dictInsert]
    by_cases hk : key = x.custom_id
    · subst hk
      rw [if_pos rfl]
      have hfil :
          (xs ++ [x]).filter (fun l => l.custom_id == x.custom_id) =
            xs.filter (fun l => l.custom_id == x.custom_id) ++ [x] := by
        simp [List.filter_append]
      rw [hfil, List.getLast?_concat]
      rfl
    · have hk2 : ¬(x.custom_id = key) := fun h => hk h.symm
      rw [if_neg hk]
      have hfil :
          (xs ++ [x]).filter (fun l => l.custom_id == key) =
            xs.filter (fun l => l.custom_id == key) := by
        simp [List.filter_append, hk2]
      rw [hfil]
      exact ih

theorem parse_results_mem_keys (lines : List ResultLine) (key : String) :
    key ∈ (parse_batch_results lines).results.map Prod.fst ↔
      key ∈ lines.map (fun l => l.custom_id) := by
  rw [← not_iff_not, ← lookupAL_eq_none_iff, parse_results_lookup]
  simp only [Option.map_eq_none', List.getLast?_eq_none_iff,
    List.filter_eq_nil_iff, List.mem_map]
  constructor
  · intro h
    rintro ⟨l, hl, rfl⟩
    exact h l hl (by simp)
  · intro h l hl hcontra
    exact h ⟨l, hl, by simpa using hcontra⟩

theorem parse_results_count (lines : List ResultLine) :
    (parse_batch_results lines).results.length =
      (lines.map (fun l => l.custom_id)).toFinset.card := by
  have hnodup := parse_results_keys_nodup lines
  have hlen : (parse_batch_results lines).results.length =
      ((parse_batch_results lines).results.map Prod.fst).length := by
    simp
  rw [hlen, ← List.toFinset_card_of_nodup hnodup]
  congr 1
  ext k
  simp only [List.mem_toFinset]
  exact parse_results_mem_keys lines k

/-- Claim C1: the mapping returned by `parse_batch_results` has
pairwise-distinct keys, one entry per distinct `custom_id` occurring in
the input lines (so its size is the number of distinct `custom_id`
values), and the entry stored under a `custom_id` is the result derived
from the *last* input line carrying that `custom_id` (last-write-wins). -/
theorem parse_batch_results_last_write_wins (lines : List ResultLine) :
    ((parse_batch_results lines).results.map Prod.fst).Nodup ∧
    (parse_batch_results lines).results.length =
      (lines.map (fun l => l.custom_id)).toFinset.card ∧
    ∀ key, lookupAL (parse_batch_results lines).results key =
      ((lines.filter (fun l => l.custom_id == key)).getLast?).map
        lineResult :=
  ⟨parse_results_keys_nodup lines, parse_results_count lines,
    fun key => parse_results_lookup lines key⟩

/-- Claim C6: a result line carrying a `Structure` function call whose
arguments fail to decode as JSON makes the parser store the fully
populated "Error parsing result" sentinel (relevance `"Error"`) under
that line's `custom_id`, and increments the error counter. -/
theorem parse_error_sentinel (s : ParseState) (line : ResultLine)
    (msg : Message) (fc : FunctionCall)
    (hmsg : line.message = some msg) (hfc : locateCall msg = some fc)
    (hname : fc.name = "Structure") (hargs : fc.arguments = none) :
    lookupAL (parseStep s line).results line.custom_id =
      some parseErrorResult ∧
    (parseStep s line).error_count = s.error_count + 1 ∧
    parseErrorResult.tldr = "Error parsing result" ∧
    parseErrorResult.motivation = "Error parsing result" ∧
    parseErrorResult.method = "Error parsing result" ∧
    parseErrorResult.result = "Error parsing result" ∧
    parseErrorResult.conclusion = "Error parsing result" ∧
    parseErrorResult.relevance = some "Error" := by
  refine ⟨?_, ?_, rfl, rfl, rfl, rfl, rfl, rfl⟩
  · simp [parseStep, hmsg, hfc, hname, hargs, lookupAL_dictInsert]
  · simp [parseStep, hmsg, hfc, hname, hargs]

/-- Witness for C6 at a concrete line. -/
theorem parse_error_sentinel_witness :
    lookupAL (parseStep initParseState
        ⟨"p1", some ⟨some ⟨"Structure", none⟩, []⟩⟩).results "p1" =
      some parseErrorResult ∧
    (parseStep initParseState
        ⟨"p1", some ⟨some ⟨"Structure", none⟩, []⟩⟩).error_count =
      initParseState.error_count + 1 :=
  ⟨(parse_error_sentinel initParseState
      ⟨"p1", some ⟨some ⟨"Structure", none⟩, []⟩⟩
      ⟨some ⟨"Structure", none⟩, []⟩ ⟨"Structure", none⟩
      rfl rfl rfl rfl).1,
   (parse_error_sentinel initParseState
      ⟨"p1", some ⟨some ⟨"Structure", none⟩, []⟩⟩
      ⟨some ⟨"Structure", none⟩, []⟩ ⟨"Structure", none⟩
      rfl rfl rfl rfl).2.1⟩

/-! ## Lemmas about the merge/filter/sort stage -/

theorem bumpBucket_total (c : RelevanceCounts) (r : String) :
    (bumpBucket c r).total = c.total + 1 := by
  unfold bumpBucket
  split_ifs <;> simp [RelevanceCounts.total] <;> omega

theorem filterStep_total (acc : RelevanceCounts × List Item) (item : Item) :
    (filterStep acc item).1.total = acc.1.total + 1 := by
  obtain ⟨c, f⟩ := acc
  cases hai : item.AI with
  | none =>
    simp [filterStep, hai, RelevanceCounts.total]
    omega
  | some ai =>
    cases hr : ai.relevance with
    | none =>
      simp [filterStep, hai, hr, RelevanceCounts.total]
      omega
    | some r =>
      by_cases hkn : r ∈ knownBuckets
      · by_cases hlow : r = "Low" ∨ r = "Irrelevant" <;>
          simp [filterStep, hai, hr, hkn, hlow, bumpBucket_total]
      · by_cases hlow : r = "Low" ∨ r = "Irrelevant" <;>
          simp [filterStep, hai, hr, hkn, hlow, RelevanceCounts.total] <;>
          omega

theorem processFilter_total_aux (l : List Item)
    (acc : RelevanceCounts × List Item) :
    ((l.foldl filterStep acc).1).total = acc.1.total + l.length := by
  induction l generalizing acc with
  | nil => simp
  | cons x xs ih =>
    rw [List.foldl_cons, ih, filterStep_total]
    simp only [List.length_cons]
    omega

/-- Claim C3: every record entering the filter stage lands in exactly
one histogram bucket, so the histogram's values sum to the number of
records. -/
theorem histogram_sum_invariant (enhanced : List Item) :
    ((processFilter enhanced).1).total = enhanced.length := by
  have h := processFilter_total_aux enhanced (emptyCounts, [])
  simpa [processFilter, emptyCounts, RelevanceCounts.total] using h

theorem filterStep_snd (acc : RelevanceCounts × List Item) (item : Item) :
    (filterStep acc item).2 =
      acc.2 ++ (if keepItem item then [item] else []) := by
  obtain ⟨c, f⟩ := acc
  cases hai : item.AI with
  | none => simp [filterStep, keepItem, hai]
  | some ai =>
    cases hr : ai.relevance with
    | none => simp [filterStep, keepItem, hai, hr]
    | some r =>
      by_cases h1 : r = "Low"
      · simp [filterStep, keepItem, hai, hr, h1]
      · by_cases h2 : r = "Irrelevant" <;>
          simp [filterStep, keepItem, hai, hr, h1, h2]

theorem processFilter_snd_aux (l : List Item)
    (acc : RelevanceCounts × List Item) :
    (l.foldl filterStep acc).2 = acc.2 ++ l.filter keepItem := by
  induction l generalizing acc with
  | nil => simp
  | cons x xs ih =>
    rw [List.foldl_cons, ih, filterStep_snd]
    by_cases hx : keepItem x <;> simp [hx, List.filter_cons]

theorem processFilter_snd (l : List Item) :
    (processFilter l).2 = l.filter keepItem := by
  simpa [processFilter] using processFilter_snd_aux l (emptyCounts, [])

/-- Claim C5: the filter retains exactly the records whose
`AI.relevance` is not literally `"Low"` or `"Irrelevant"` (no-AI,
no-relevance, `Error` and unknown values are all kept), and re-running
the filter stage on its own retained output returns it unchanged. -/
theorem filter_retains_and_idempotent (l : List Item) :
    (processFilter l).2 = l.filter keepItem ∧
    (processFilter ((processFilter l).2)).2 = (processFilter l).2 ∧
    ∀ item, keepItem item = false ↔
      ∃ ai r, item.AI = some ai ∧ ai.relevance = some r ∧
        (r = "Low" ∨ r = "Irrelevant") := by
  refine ⟨processFilter_snd l, ?_, ?_⟩
  · rw [processFilter_snd, processFilter_snd, List.filter_filter]
    simp
  · intro item
    cases hai : item.AI with
    | none => simp [keepItem, hai]
    | some ai =>
      cases hr : ai.relevance with
      | none => simp [keepItem, hai, hr]
      | some r =>
        by_cases h1 : r = "Low"
        · simp [keepItem, hai, hr, h1]
        · by_cases h2 : r = "Irrelevant" <;>
            simp [keepItem, hai, hr, h1, h2]

/-- Claim C2: a record whose id is absent from the parsed mapping gets
the legacy "No AI result" sentinel (five text fields, no `relevance`
key) attached by the merge stage, and the filter stage counts it in the
`Legacy` bucket (not `Error`) and retains it. -/
theorem merge_missing_id_legacy (results : List (String × AIResult))
    (data : List Item) (i : Fin data.length)
    (h : lookupAL results (data.get i).id = none) :
    (mergeResults results data)[i.val]? =
      some { data.get i with AI := some noAIResult } ∧
    noAIResult.tldr = "No AI result" ∧
    noAIResult.motivation = "No AI result" ∧
    noAIResult.method = "No AI result" ∧
    noAIResult.result = "No AI result" ∧
    noAIResult.conclusion = "No AI result" ∧
    noAIResult.relevance = none ∧
    (∀ acc : RelevanceCounts × List Item,
      filterStep acc { data.get i with AI := some noAIResult } =
        ({ acc.1 with legacy := acc.1.legacy + 1 },
          acc.2 ++ [{ data.get i with AI := some noAIResult }])) := by
  refine ⟨?_, rfl, rfl, rfl, rfl, rfl, rfl, ?_⟩
  · have hlt : i.val < data.length := i.isLt
    have h2 : lookupAL results data[i.val].id = none := by
      simpa using h
    simp [mergeResults, List.getElem?_map, List.getElem?_eq_getElem hlt, h2]
  · intro acc
    simp [filterStep, noAIResult]

/-- Witness for C2 at a concrete record and empty mapping. -/
theorem merge_missing_id_legacy_witness :
    (mergeResults [] [⟨"p2", none, []⟩])[(0 : Nat)]? =
      some ⟨"p2", some noAIResult, []⟩ ∧
    noAIResult.relevance = none :=
  ⟨(merge_missing_id_legacy [] [⟨"p2", none, []⟩] ⟨0, by decide⟩ rfl).1,
   (merge_missing_id_legacy [] [⟨"p2", none, []⟩]
      ⟨0, by decide⟩ rfl).2.2.2.2.2.2.1⟩

/-! ## Lemmas about the stable descending sort -/

theorem insertDesc_perm (key : Item → Nat) (x : Item) (l : List Item) :
    (insertDesc key x l).Perm (x :: l) := by
  induction l with
  | nil => exact List.Perm.refl _
  | cons y ys ih =>
    by_cases h : key x < key y
    · simp only [insertDesc, if_pos h]
      exact (ih.cons y).trans (List.Perm.swap x y ys)
    · simp only [insertDesc, if_neg h]
      exact List.Perm.refl _

theorem insertDesc_pairwise (key : Item → Nat) (x : Item) (l : List Item)
    (h : l.Pairwise (fun a b => key b ≤ key a)) :
    (insertDesc key x l).Pairwise (fun a b => key b ≤ key a) := by
  induction l with
  | nil => simp [insertDesc]
  | cons y ys ih =>
    rcases List.pairwise_cons.mp h with ⟨hy, hys⟩
    by_cases hlt : key x < key y
    · simp only [insertDesc, if_pos hlt]
      refine List.pairwise_cons.mpr ⟨?_, ih hys⟩
      intro b hb
      have hb2 : b ∈ x :: ys := (insertDesc_perm key x ys).mem_iff.mp hb
      rcases List.mem_cons.mp hb2 with rfl | hb3
      · exact Nat.le_of_lt hlt
      · exact hy b hb3
    · simp only [insertDesc, if_neg hlt]
      refine List.pairwise_cons.mpr ⟨?_, h⟩
      intro b hb
      rcases List.mem_cons.mp hb with rfl | hb
      · exact Nat.le_of_not_lt hlt
      · exact le_trans (hy b hb) (Nat.le_of_not_lt hlt)

theorem insertDesc_filter_eq (key : Item → Nat) (x : Item) (l : List Item)
    (s : Nat) (hx : key x = s) :
    (insertDesc key x l).filter (fun a => key a == s) =
      x :: l.filter (fun a => key a == s) := by
  induction l with
  | nil => simp [insertDesc, hx]
  | cons y ys ih =>
    by_cases hlt : key x < key y
    · have hy : ¬(key y = s) := by
        intro hys
        rw [← hx] at hys
        exact absurd hlt (by rw [hys]; exact lt_irrefl _)
      simp only [insertDesc, if_pos hlt, List.filter_cons]
      simp [hy, ih]
    · simp only [insertDesc, if_neg hlt, List.filter_cons]
      simp [hx]

theorem insertDesc_filter_ne (key : Item → Nat) (x : Item) (l : List Item)
    (s : Nat) (hx : ¬(key x = s)) :
    (insertDesc key x l).filter (fun a => key a == s) =
      l.filter (fun a => key a == s) := by
  induction l with
  | nil => simp [insertDesc, hx]
  | cons y ys ih =>
    by_cases hlt : key x < key y
    · simp only [insertDesc, if_pos hlt, List.filter_cons]
      rw [ih]
    · simp only [insertDesc, if_neg hlt, List.filter_cons]
      simp [hx]

theorem sortDesc_perm (key : Item → Nat) (l : List Item) :
    (sortDesc key l).Perm l := by
  induction l with
  | nil => exact List.Perm.refl _
  | cons x xs ih =>
    exact (insertDesc_perm key x (sortDesc key xs)).trans (ih.cons x)

theorem sortDesc_pairwise (key : Item → Nat) (l : List Item) :
    (sortDesc key l).Pairwise (fun a b => key b ≤ key a) := by
  induction l with
  | nil => simp [sortDesc]
  | cons x xs ih => exact insertDesc_pairwise key x (sortDesc key xs) ih

theorem sortDesc_filter (key : Item → Nat) (l : List Item) (s : Nat) :
    (sortDesc key l).filter (fun a => key a == s) =
      l.filter (fun a => key a == s) := by
  induction l with
  | nil => rfl
  | cons x xs ih =>
    by_cases hx : key x = s
    · rw [sortDesc, insertDesc_filter_eq key x (sortDesc key xs) s hx, ih,
        List.filter_cons]
      simp [hx]
    · rw [sortDesc, insertDesc_filter_ne key x (sortDesc key xs) s hx, ih,
        List.filter_cons]
      simp [hx]

theorem relevance_order_get_other (r : String) (h1 : ¬(r = "Must"))
    (h2 : ¬(r = "High")) (h3 : ¬(r = "Medium")) (h4 : ¬(r = "Low"))
    (h5 : ¬(r = "Irrelevant")) (h6 : ¬(r = "Error")) :
    relevance_order_get r = 0 := by
  have g1 : ("Must" == r) = false := beq_eq_false_iff_ne.mpr fun h => h1 h.symm
  have g2 : ("High" == r) = false := beq_eq_false_iff_ne.mpr fun h => h2 h.symm
  have g3 : ("Medium" == r) = false :=
    beq_eq_false_iff_ne.mpr fun h => h3 h.symm
  have g4 : ("Low" == r) = false := beq_eq_false_iff_ne.mpr fun h => h4 h.symm
  have g5 : ("Irrelevant" == r) = false :=
    beq_eq_false_iff_ne.mpr fun h => h5 h.symm
  have g6 : ("Error" == r) = false :=
    beq_eq_false_iff_ne.mpr fun h => h6 h.symm
  simp [relevance_order_get, relevance_order, List.find?, g1, g2, g3, g4,
    g5, g6]

/-- Claim C4: the sort key assigns `Must = 3`, `High = 2`, `Medium = 1`
and 0 to every other record (any other relevance value, a missing
`relevance` key, or a missing `AI` field), and the sort is a permutation
of the retained records that is descending in the key and stable: for
every score, the records of that score appear in the output in exactly
their input order. -/
theorem sort_by_relevance_spec (l : List Item) :
    (∀ item ai, item.AI = some ai → ai.relevance = some "Must" →
      get_relevance_score item = 3) ∧
    (∀ item ai, item.AI = some ai → ai.relevance = some "High" →
      get_relevance_score item = 2) ∧
    (∀ item ai, item.AI = some ai → ai.relevance = some "Medium" →
      get_relevance_score item = 1) ∧
    (∀ item ai r, item.AI = some ai → ai.relevance = some r →
      ¬(r = "Must") → ¬(r = "High") → ¬(r = "Medium") →
      get_relevance_score item = 0) ∧
    (∀ item, item.AI = none → get_relevance_score item = 0) ∧
    (∀ item ai, item.AI = some ai → ai.relevance = none →
      get_relevance_score item = 0) ∧
    (sortDesc get_relevance_score l).Perm l ∧
    (sortDesc get_relevance_score l).Pairwise
      (fun a b => get_relevance_score b ≤ get_relevance_score a) ∧
    (∀ s, (sortDesc get_relevance_score l).filter
        (fun a => get_relevance_score a == s) =
      l.filter (fun a => get_relevance_score a == s)) := by
  refine ⟨?_, ?_, ?_, ?_, ?_, ?_, sortDesc_perm _ l, sortDesc_pairwise _ l,
    fun s => sortDesc_filter _ l s⟩
  · intro item ai hai hr
    simp [get_relevance_score, hai, hr, relevance_order_get, relevance_order]
  · intro item ai hai hr
    simp [get_relevance_score, hai, hr, relevance_order_get, relevance_order]
  · intro item ai hai hr
    simp [get_relevance_score, hai, hr, relevance_order_get, relevance_order]
  · intro item ai r hai hr h1 h2 h3
    by_cases hs : r = "Error" ∨ r = "Irrelevant" ∨ r = "Low"
    · simp [get_relevance_score, hai, hr, hs]
    · push_neg at hs
      obtain ⟨h6, h5, h4⟩ := hs
      simp [get_relevance_score, hai, hr, h4, h5, h6,
        relevance_order_get_other r h1 h2 h3 h4 h5 h6]
  · intro item hai
    simp [get_relevance_score, hai]
  · intro item ai hai hr
    simp [get_relevance_score, hai, hr]

/-- Witness for C4 at concrete records. -/
theorem sort_by_relevance_spec_witness :
    get_relevance_score ⟨"a", some ⟨"t", "m", "e", "r", "c", some "Must"⟩, []⟩
        = 3 ∧
    get_relevance_score ⟨"b", some ⟨"t", "m", "e", "r", "c", some "Odd"⟩, []⟩
        = 0 :=
  ⟨(sort_by_relevance_spec []).1
      ⟨"a", some ⟨"t", "m", "e", "r", "c", some "Must"⟩, []⟩
      ⟨"t", "m", "e", "r", "c", some "Must"⟩ rfl rfl,
   (sort_by_relevance_spec []).2.2.2.1
      ⟨"b", some ⟨"t", "m", "e", "r", "c", some "Odd"⟩, []⟩
      ⟨"t", "m", "e", "r", "c", some "Odd"⟩ "Odd" rfl rfl
      (by decide) (by decide) (by decide)⟩

/-! ## The polling loop -/

/-- Claim C7: one iteration of the status-polling loop behaves by
status: `completed` proceeds to download; `failed`, `expired`,
`cancelled` return failure immediately; the three in-flight statuses
sleep 60 seconds and re-poll when a blocking wait was requested and the
accumulated wait time is still under `max_wait`, and return the
not-ready failure otherwise; any unrecognized status returns failure
immediately. -/
theorem poll_step_cases (status : String) (w : Bool) (wt mw : Nat) :
    (status = "completed" → pollStep status w wt mw = PollAction.proceed) ∧
    ((status = "failed" ∨ status = "expired" ∨ status = "cancelled") →
      pollStep status w wt mw = PollAction.returnFalse) ∧
    ((status = "validating" ∨ status = "in_progress" ∨
        status = "finalizing") →
      ((w = true ∧ wt < mw) →
        pollStep status w wt mw = PollAction.sleepAndRepoll 60 (wt + 60)) ∧
      (¬(w = true ∧ wt < mw) →
        pollStep status w wt mw = PollAction.returnFalse)) ∧
    (status ∉ (["completed", "failed", "expired", "cancelled", "validating",
        "in_progress", "finalizing"] : List String) →
      pollStep status w wt mw = PollAction.returnFalse) := by
  refine ⟨?_, ?_, ?_, ?_⟩
  · intro h
    subst h
    simp [pollStep]
  · intro h
    rcases h with h | h | h <;> subst h <;> simp [pollStep]
  · intro h
    constructor
    · intro hw
      rcases h with h | h | h <;> subst h <;> simp [pollStep, hw.1, hw.2]
    · intro hw
      rcases h with h | h | h <;> subst h <;> simp [pollStep, hw]
  · intro h
    simp only [List.mem_cons, List.not_mem_nil, or_false, not_or] at h
    obtain ⟨h1, h2, h3, h4, h5, h6, h7⟩ := h
    simp [pollStep, h1, h2, h3, h4, h5, h6, h7]

/-- Witness for C7 at concrete statuses and wait budgets. -/
theorem poll_step_cases_witness :
    pollStep "in_progress" true 0 3600 = PollAction.sleepAndRepoll 60 60 ∧
    pollStep "parsing" true 0 3600 = PollAction.returnFalse :=
  ⟨((poll_step_cases "in_progress" true 0 3600).2.2.1
      (Or.inr (Or.inl rfl))).1 ⟨rfl, by decide⟩,
   (poll_step_cases "parsing" true 0 3600).2.2.2 (by decide)⟩

/-! ## The Submit stage -/

theorem removeDupsLoop_ids (seen : List String) (data : List SubmitRecord) :
    ((removeDupsLoop seen data).map (fun r => r.id)).Nodup ∧
    ∀ k ∈ (removeDupsLoop seen data).map (fun r => r.id), k ∉ seen := by
  induction data generalizing seen with
  | nil => simp [removeDupsLoop]
  | cons item rest ih =>
    by_cases h : item.id ∈ seen
    · simpa [removeDupsLoop, h] using ih seen
    · obtain ⟨ihn, ihd⟩ := ih (item.id :: seen)
      simp only [removeDupsLoop, if_neg h, List.map_cons]
      refine ⟨List.nodup_cons.mpr ⟨?_, ihn⟩, ?_⟩
      · intro hmem
        exact ihd item.id hmem (List.mem_cons_self _ _)
      · intro k hk
        rcases List.mem_cons.mp hk with rfl | hk2
        · exact h
        · intro hks
          exact ihd k hk2 (List.mem_cons_of_mem _ hks)

theorem removeDupsLoop_sublist (seen : List String)
    (data : List SubmitRecord) :
    (removeDupsLoop seen data).Sublist data := by
  induction data generalizing seen with
  | nil => simp [removeDupsLoop]
  | cons item rest ih =>
    by_cases h : item.id ∈ seen
    · simp only [removeDupsLoop, if_pos h]
      exact (ih seen).cons item
    · simp only [removeDupsLoop, if_neg h]
      exact (ih (item.id :: seen)).cons₂ item

theorem removeDupsLoop_covers (seen : List String)
    (data : List SubmitRecord) (x : SubmitRecord) (hx : x ∈ data)
    (hid : x.id ∉ seen) :
    ∃ y ∈ removeDupsLoop seen data, y.id = x.id := by
  induction data generalizing seen with
  | nil => cases hx
  | cons item rest ih =>
    by_cases h : item.id ∈ seen
    · rcases List.mem_cons.mp hx with rfl | hx2
      · exact absurd h hid
      · simp only [removeDupsLoop, if_pos h]
        exact ih seen hx2 hid
    · simp only [removeDupsLoop, if_neg h]
      by_cases hxi : x.id = item.id
      · exact ⟨item, List.mem_cons_self _ _, hxi.symm⟩
      · rcases List.mem_cons.mp hx with rfl | hx2
        · exact absurd rfl hxi
        · obtain ⟨y, hy, hyid⟩ :=
            ih (item.id :: seen) hx2
              (by
                intro hks
                rcases List.mem_cons.mp hks with hks | hks
                · exact hxi hks
                · exact hid hks)
          exact ⟨y, List.mem_cons_of_mem _ hy, hyid⟩

theorem removeDupsLoop_mem_id_not_seen (seen : List String)
    (data : List SubmitRecord) (y : SubmitRecord)
    (hy : y ∈ removeDupsLoop seen data) : y.id ∉ seen :=
  (removeDupsLoop_ids seen data).2 y.id
    (List.mem_map_of_mem (fun r => r.id) hy)

theorem removeDupsLoop_first (seen : List String)
    (data : List SubmitRecord) (y : SubmitRecord)
    (hy : y ∈ removeDupsLoop seen data) :
    data.find? (fun z => z.id == y.id) = some y := by
  induction data generalizing seen with
  | nil => simp [removeDupsLoop] at hy
  | cons item rest ih =>
    by_cases h : item.id ∈ seen
    · simp only [removeDupsLoop, if_pos h] at hy
      have hyid : y.id ∉ seen := removeDupsLoop_mem_id_not_seen seen rest y hy
      have hne : (item.id == y.id) = false :=
        beq_eq_false_iff_ne.mpr (by
          intro he
          exact hyid (he ▸ h))
      rw [List.find?_cons]
      simp only [hne]
      exact ih seen hy
    · simp only [removeDupsLoop, if_neg h] at hy
      rcases List.mem_cons.mp hy with rfl | hy2
      · rw [List.find?_cons]
        simp
      · have hyid : y.id ∉ item.id :: seen :=
          removeDupsLoop_mem_id_not_seen (item.id :: seen) rest y hy2
        have hne : (item.id == y.id) = false :=
          beq_eq_false_iff_ne.mpr (by
            intro he
            exact hyid (by rw [← he]; exact List.mem_cons_self _ _))
        rw [List.find?_cons]
        simp only [hne]
        exact ih (item.id :: seen) hy2

/-- Claim C8: the Submit entry point de-duplicates its records by id
keeping the first occurrence in input order (distinct surviving ids, a
subsequence of the input covering every input id, each kept record being
the first input record with its id), while `create_batch_requests`
performs no de-duplication: one request per input element, in order,
with `custom_id` equal to that element's id. -/
theorem submit_dedup_and_requests (data : List SubmitRecord)
    (model_name language interest : String) :
    ((removeDuplicates data).map (fun r => r.id)).Nodup ∧
    (removeDuplicates data).Sublist data ∧
    (∀ x ∈ data, ∃ y ∈ removeDuplicates data, y.id = x.id) ∧
    (∀ y ∈ removeDuplicates data,
      data.find? (fun z => z.id == y.id) = some y) ∧
    (create_batch_requests model_name data language interest).length =
      data.length ∧
    ∀ i : Fin data.length,
      (create_batch_requests model_name data language interest)[i.val]? =
        some { custom_id := (data.get i).id, method := "POST",
               url := "/v1/chat/completions", model_name := model_name,
               language := language,
               interest_section :=
                 if interest = "" then "No interest provided" else interest,
               content := (data.get i).summary } := by
  refine ⟨(removeDupsLoop_ids [] data).1, removeDupsLoop_sublist [] data,
    ?_, ?_, ?_, ?_⟩
  · intro x hx
    exact removeDupsLoop_covers [] data x hx (List.not_mem_nil _)
  · intro y hy
    exact removeDupsLoop_first [] data y hy
  · simp [create_batch_requests]
  · intro i
    have hlt : i.val < data.length := i.isLt
    simp [create_batch_requests, List.getElem?_map,
      List.getElem?_eq_getElem hlt]

/-- Witness for C8 at a concrete duplicated input. -/
theorem submit_dedup_and_requests_witness :
    (∃ y ∈ removeDuplicates [⟨"a", "s1", []⟩, ⟨"a", "s2", []⟩],
      y.id = "a") ∧
    (create_batch_requests "m" [⟨"a", "s1", []⟩, ⟨"a", "s2", []⟩]
        "Korean" "").length = 2 :=
  ⟨(submit_dedup_and_requests [⟨"a", "s1", []⟩, ⟨"a", "s2", []⟩]
      "m" "Korean" "").2.2.1 ⟨"a", "s2", []⟩ (by decide),
   (submit_dedup_and_requests [⟨"a", "s1", []⟩, ⟨"a", "s2", []⟩]
      "m" "Korean" "").2.2.2.2.1⟩

/-! ## Cleanup and the post-completion phase -/

/-- Counterexample to claim C9 as stated: when removing the downloaded
results file fails, the failure is not caught — `cleanupTail` escalates
the exception instead of logging a warning, so `process_batch_results`
does not run to its `return True`. -/
theorem cleanup_escalates_counterexample :
    cleanupTail ⟨["res.jsonl"], ["res.jsonl"]⟩ "res.jsonl" ["a.json"] =
      Except.error "res.jsonl" := rfl

/-- Claim C9 (amended): every deletion is guarded by an existence check
(a missing file is never touched and never raises), and a failure to
delete any of the three batch-related files is only a warning — whenever
removing the downloaded results file does not itself fail, cleanup
completes and the function returns `True` regardless of any other
deletion failures. -/
theorem cleanup_amended (fs : FS) (rf : String) (bfs : List String)
    (h : ¬(rf ∈ fs.files ∧ rf ∈ fs.failing)) :
    (∃ fs2, cleanupTail fs rf bfs = Except.ok (fs2, true)) ∧
    (∀ fs1 : FS, ∀ p : String, p ∉ fs1.files →
      cleanupBatchFile fs1 p = fs1 ∧
      cleanupResultsFile fs1 p = Except.ok fs1) := by
  constructor
  · by_cases hc : rf ∈ fs.files
    · have hf : rf ∉ fs.failing := fun hf => h ⟨hc, hf⟩
      refine ⟨(bfs.foldl cleanupBatchFile
        { fs with files := fs.files.erase rf }), ?_⟩
      simp [cleanupTail, cleanupResultsFile, removeFile, hc, hf]
    · refine ⟨bfs.foldl cleanupBatchFile fs, ?_⟩
      simp [cleanupTail, cleanupResultsFile, hc]
  · intro fs1 p hp
    constructor
    · simp [cleanupBatchFile, hp]
    · simp [cleanupResultsFile, hp]

/-- Witness for the amended C9: the results file is removable, one
batch-related file fails to delete, cleanup still returns `True`. -/
theorem cleanup_amended_witness :
    ∃ fs2, cleanupTail ⟨["r.jsonl", "b.json"], ["b.json"]⟩ "r.jsonl"
      ["b.json"] = Except.ok (fs2, true) :=
  (cleanup_amended ⟨["r.jsonl", "b.json"], ["b.json"]⟩ "r.jsonl" ["b.json"]
    (by decide)).1

/-- Claim C10: a completed batch whose status snapshot has a missing or
empty `output_file_id` makes the post-completion phase return `False`
without attempting the download, the merge, or the output write. -/
theorem no_output_file_id_returns_false (oid : Option String)
    (download_ok : Bool) (lines : List ResultLine) (data : List Item)
    (h : oid.getD "" = "") :
    downloadPhase oid download_ok lines data = (false, []) := by
  simp [downloadPhase, h]

/-- Witness for C10 at a missing output file id. -/
theorem no_output_file_id_returns_false_witness :
    downloadPhase none true [] [] = (false, []) :=
  no_output_file_id_returns_false none true [] [] rfl
